import Mathlib

/-!
Shallow embedding of the email-tracker server (src/server/database.py and
src/server/main.py) and proofs about the specification claims.

The SQLite tables become lists of records in a `DBState`; each HTTP handler
becomes a function from a `DBState` (plus the request data and the outcome of
the external geolocation call) to a new `DBState` and a response.  SQL text
values are Lean `String`s; the `event_type` column keeps its source values
"open" and "click".  Timestamps are not modeled: no claim under consideration
depends on them (ORDER BY clauses and the 30-day activity series are therefore
omitted from the embedded queries).  The AUTOINCREMENT event id is modeled by
the `nextEventId` counter.
-/

/-- Row of the `emails` table (id TEXT PRIMARY KEY, subject, recipient). -/
structure Email where
  id : String
  subject : String
  recipient : String
  deriving Repr, DecidableEq

/-- Row of the `links` table (id TEXT PRIMARY KEY, email_id, original_url). -/
structure Link where
  id : String
  email_id : String
  original_url : String
  deriving Repr, DecidableEq

/-- Row of the `events` table.  `link_id` is nullable; `event_type` is the
TEXT column restricted by the schema CHECK to "open" or "click". -/
structure Event where
  id : Nat
  email_id : String
  link_id : Option String
  event_type : String
  ip : String
  user_agent : String
  country : String
  deriving Repr, DecidableEq

/-- The whole persisted store.  `ignored_ips` keeps only the ip column: no
claim mentions the label or created_at columns.  (The handlers and the
management API all use this table; whether `init_db` actually creates it is
the subject of claim C1.) -/
structure DBState where
  emails : List Email
  links : List Link
  events : List Event
  ignored_ips : List String
  nextEventId : Nat
  deriving Repr, DecidableEq

/-- Empty store; AUTOINCREMENT ids start at 1. -/
def initState : DBState :=
  { emails := [], links := [], events := [], ignored_ips := [], nextEventId := 1 }

/-- Responses the embedded handlers can produce.  `pixel` carries the response
headers (the body is always the fixed PIXEL_PNG constant, so it is left
implicit); `redirect` carries the HTTP status and Location; `jsonError`
carries the status and error message. -/
inductive Resp where
  | pixel (headers : List (String × String)) : Resp
  | redirect (status : Nat) (url : String) : Resp
  | jsonError (status : Nat) (msg : String) : Resp
  deriving Repr, DecidableEq

/-- Headers of the early pixel return taken when the IP is ignored
(main.py lines 81-85). -/
def pixelCacheHeadersShort : List (String × String) :=
  [("Cache-Control", "no-store, no-cache, must-revalidate, max-age=0")]

/-- Headers of the normal pixel return (main.py lines 101-109). -/
def pixelCacheHeadersFull : List (String × String) :=
  [("Cache-Control", "no-store, no-cache, must-revalidate, max-age=0"),
   ("Pragma", "no-cache"), ("Expires", "0")]

/-- Result of the external geolocation HTTP request, when it returned at all:
status code and the two JSON fields (absent fields default to ""). -/
structure GeoReply where
  status : Nat
  city : String
  country : String
  deriving Repr, DecidableEq

/-- Embedding of `geolocate_ip` (main.py lines 21-37).  `reply = none` models
a timeout or raised exception, which the source absorbs via try/except. -/
def geolocate_ip (ip : String) (reply : Option GeoReply) : String :=
  if ip == "" || ip == "127.0.0.1" || ip == "::1" || ip == "testclient" then ""
  else
    match reply with
    | none => ""
    | some r =>
      if r.status == 200 then
        if r.city != "" && r.country != "" then r.city ++ ", " ++ r.country
        else r.country
      else ""

/-- The `INSERT OR IGNORE INTO emails (id, subject, recipient) VALUES (?, '', '')`
statement of the open handler (main.py lines 88-91). -/
def insertEmailIfMissing (st : DBState) (id : String) : DBState :=
  if st.emails.any (fun e => e.id == id) then st
  else { st with emails := st.emails ++ [{ id := id, subject := "", recipient := "" }] }

/-- Appending one row to `events`, with the autoincrement id. -/
def appendEvent (st : DBState) (email_id : String) (link_id : Option String)
    (event_type ip user_agent country : String) : DBState :=
  { st with
    events := st.events ++
      [{ id := st.nextEventId, email_id := email_id, link_id := link_id,
         event_type := event_type, ip := ip, user_agent := user_agent,
         country := country }],
    nextEventId := st.nextEventId + 1 }

/-- Embedding of `track_open` (main.py lines 69-109).  The handler body runs
inside `try ... finally: await db.close()` with no except clause, so an
exception from any storage operation past the ignored-IP check propagates to
the framework (modeled by the response `none`, which FastAPI turns into a 500)
and the uncommitted transaction is rolled back when the connection closes
(modeled by returning the state unchanged).  `eventWriteFails` is true when
one of those storage operations raises.  `geo` is the outcome of the awaited
external geolocation request. -/
def track_open (st : DBState) (tracking_id ip user_agent : String)
    (geo : Option GeoReply) (eventWriteFails : Bool) : DBState × Option Resp :=
  if st.ignored_ips.contains ip then
    (st, some (Resp.pixel pixelCacheHeadersShort))
  else if eventWriteFails then
    (st, none)
  else
    let st1 := insertEmailIfMissing st tracking_id
    let st2 := appendEvent st1 tracking_id none "open" ip user_agent
      (geolocate_ip ip geo)
    (st2, some (Resp.pixel pixelCacheHeadersFull))

/-- The `SELECT email_id, original_url FROM links WHERE id = ?` lookup
(main.py lines 117-119); the handler uses `rows[0]`. -/
def findLink (st : DBState) (link_id : String) : Option Link :=
  st.links.find? (fun l => l.id == link_id)

/-- Embedding of `track_click` (main.py lines 112-141).  Same failure model as
`track_open`: no except clause, so a storage failure while writing the event
propagates (response `none`) and the redirect is never sent. -/
def track_click (st : DBState) (link_id ip user_agent : String)
    (geo : Option GeoReply) (eventWriteFails : Bool) : DBState × Option Resp :=
  match findLink st link_id with
  | none => (st, some (Resp.jsonError 404 "Link not found"))
  | some link =>
    if st.ignored_ips.contains ip then
      (st, some (Resp.redirect 302 link.original_url))
    else if eventWriteFails then
      (st, none)
    else
      (appendEvent st link.email_id (some link_id) "click" ip user_agent
        (geolocate_ip ip geo),
       some (Resp.redirect 302 link.original_url))

/-- Embedding of the registration upsert (main.py lines 160-165):
`INSERT INTO emails ... ON CONFLICT(id) DO UPDATE SET subject=excluded.subject,
recipient=excluded.recipient WHERE subject = '' OR recipient = ''`.
In a SQLite DO UPDATE clause the unqualified column names refer to the
existing row, so the update fires when the stored subject OR the stored
recipient is empty. -/
def upsertEmail (st : DBState) (id subject recipient : String) : DBState :=
  if st.emails.any (fun e => e.id == id) then
    { st with emails := st.emails.map (fun e =>
        if e.id == id && (e.subject == "" || e.recipient == "") then
          { e with subject := subject, recipient := recipient }
        else e) }
  else { st with emails := st.emails ++ [{ id := id, subject := subject, recipient := recipient }] }

/-- Body of the response returned by `create_email` (main.py lines 180-184);
`links` pairs each original url with its tracked url. -/
structure RegisterResult where
  email_id : String
  pixel_url : String
  links : List (String × String)
  deriving Repr, DecidableEq

/-- The generated id `uuid.uuid4().hex[:12]` (main.py line 153); the 32-char
uuid hex string is passed in as a list of characters. -/
def generatedId (uuidHex : List Char) : String := String.mk (uuidHex.take 12)

/-- Embedding of `create_email` (main.py lines 149-184).  `emailId` is the
optional request body field; `body.get("emailId") or uuid...` treats both a
missing/null field and the empty string as absent.  The freshly generated link
ids (`uuid.uuid4().hex[:10]`, assumed collision-free in the source) are passed
in as `linkIds`.  A PRIMARY KEY violation on a link insert would raise and
roll the transaction back, modeled by the guard returning the state
unchanged with no response; the guard also requires one id per url, which the
source guarantees by generating one id inside the loop per url. -/
def create_email (st : DBState) (emailId : Option String)
    (subject recipient : String) (link_urls : List String)
    (uuidHex : List Char) (linkIds : List String) :
    DBState × Option RegisterResult :=
  let email_id :=
    match emailId with
    | none => generatedId uuidHex
    | some s => if s == "" then generatedId uuidHex else s
  if linkIds.length = link_urls.length ∧
      (st.links.map (fun l => l.id) ++ linkIds).Nodup then
    let st1 := upsertEmail st email_id subject recipient
    let newLinks := (linkIds.zip link_urls).map
      (fun p => Link.mk p.1 email_id p.2)
    ({ st1 with links := st1.links ++ newLinks },
     some { email_id := email_id,
            pixel_url := "/t/" ++ email_id ++ ".png",
            links := (linkIds.zip link_urls).map
              (fun p => (p.2, "/c/" ++ p.1)) })
  else (st, none)

/-- Embedding of `delete_email` (main.py lines 296-305) together with the
schema cascades (database.py lines 26-41): deleting the email row deletes its
links (`links.email_id REFERENCES emails ON DELETE CASCADE`), its events
(`events.email_id REFERENCES emails ON DELETE CASCADE`), and events whose
link was deleted (`events.link_id REFERENCES links ON DELETE CASCADE`). -/
def delete_email (st : DBState) (email_id : String) : DBState :=
  let deadLinkIds := (st.links.filter (fun l => l.email_id == email_id)).map
    (fun l => l.id)
  { st with
    emails := st.emails.filter (fun e => !(e.id == email_id)),
    links := st.links.filter (fun l => !(l.email_id == email_id)),
    events := st.events.filter (fun ev =>
      !(ev.email_id == email_id) &&
      !(match ev.link_id with
        | some lid => deadLinkIds.contains lid
        | none => false)) }

/-- The `INSERT OR IGNORE INTO ignored_ips` of `add_ignored_ip`
(main.py lines 364-378); the label column is not modeled. -/
def add_ignored_ip (st : DBState) (ip : String) : DBState :=
  if st.ignored_ips.contains ip then st
  else { st with ignored_ips := st.ignored_ips ++ [ip] }

/-- Embedding of `remove_ignored_ip` (main.py lines 381-389). -/
def remove_ignored_ip (st : DBState) (ip : String) : DBState :=
  { st with ignored_ips := st.ignored_ips.filter (fun i => !(i == ip)) }

/-- The email ids column, used by several invariants. -/
def emailIds (st : DBState) : List String := st.emails.map (fun e => e.id)

/-- The ip values of the open events of one email: the rows that the
COUNT(DISTINCT ip) query of `get_email` ranges over, filtered by email_id
and open event_type (main.py lines 259-263). -/
def openIps (st : DBState) (email_id : String) : List String :=
  (st.events.filter (fun ev =>
    ev.email_id == email_id && ev.event_type == "open")).map (fun ev => ev.ip)

/-- The `unique_opens` value computed by `get_email`: COUNT(DISTINCT ip)
over the open events of that email.  The handlers always bind the ip
parameter to a string (possibly empty), never NULL, so SQL NULL-skipping
does not arise. -/
def uniqueOpens (st : DBState) (email_id : String) : Nat :=
  (openIps st email_id).dedup.length

/-- The `SELECT * FROM emails WHERE id = ?` lookup of `get_email`
(main.py lines 238-242). -/
def getEmailRow (st : DBState) (email_id : String) : Option Email :=
  st.emails.find? (fun e => e.id == email_id)

/-- The detail object assembled by `get_email` (main.py lines 233-293). -/
structure EmailDetail where
  email : Email
  events : List Event
  unique_opens : Nat
  total_opens : Nat
  total_clicks : Nat
  link_stats : List (String × String × Nat)
  deriving Repr, DecidableEq

/-- Embedding of `get_email` (main.py lines 233-293): 404 (`none`) when the
email row is absent, otherwise the event timeline, the distinct-ip open
count, total open/click counts and the per-link click breakdown. -/
def get_email (st : DBState) (email_id : String) : Option EmailDetail :=
  match getEmailRow st email_id with
  | none => none
  | some e =>
    some { email := e,
           events := st.events.filter (fun ev => ev.email_id == email_id),
           unique_opens := uniqueOpens st email_id,
           total_opens := (st.events.filter (fun ev =>
             ev.email_id == email_id && ev.event_type == "open")).length,
           total_clicks := (st.events.filter (fun ev =>
             ev.email_id == email_id && ev.event_type == "click")).length,
           link_stats := (st.links.filter (fun l => l.email_id == email_id)).map
             (fun l => (l.id, l.original_url,
               (st.events.filter (fun ev =>
                 ev.link_id == some l.id && ev.event_type == "click")).length)) }

/-- The case-insensitive `LIKE %q%` filter of `list_emails` (main.py lines
198-202); the empty search string disables the filter.  Substring containment
is expressed through `splitOn`: the needle occurs in the haystack exactly when
splitting on it yields more than one piece. -/
def likeContains (hay needle : String) : Bool :=
  needle == "" || (hay.toLower.splitOn needle.toLower).length != 1

/-- One row of the `list_emails` listing with its aggregated counts
(main.py lines 209-224). -/
structure EmailListRow where
  id : String
  subject : String
  recipient : String
  open_count : Nat
  click_count : Nat
  deriving Repr, DecidableEq

/-- The rows of the `list_emails` aggregation query before pagination; row
order (ORDER BY created_at DESC) is not modeled. -/
def list_emails_rows (st : DBState) (search : String) : List EmailListRow :=
  (st.emails.filter (fun e =>
    likeContains e.subject search || likeContains e.recipient search)).map
    (fun e =>
      { id := e.id, subject := e.subject, recipient := e.recipient,
        open_count := (st.events.filter (fun ev =>
          ev.email_id == e.id && ev.event_type == "open")).length,
        click_count := (st.events.filter (fun ev =>
          ev.email_id == e.id && ev.event_type == "click")).length })

/-- Embedding of `list_emails` (main.py lines 187-230): the page of rows
(`LIMIT per_page OFFSET (page-1)*per_page`) and the total count. -/
def list_emails (st : DBState) (page per_page : Nat) (search : String) :
    List EmailListRow × Nat :=
  (((list_emails_rows st search).drop ((page - 1) * per_page)).take per_page,
   (st.emails.filter (fun e =>
     likeContains e.subject search || likeContains e.recipient search)).length)

/-- Rounding to one decimal place, the embedding of Python `round(x, 1)`
(main.py line 327); the value is carried as an exact rational. -/
def round1 (q : ℚ) : ℚ := (round (q * 10) : ℤ) / 10

/-- The global stats object of `get_stats` (main.py lines 308-346); the
30-day activity series is omitted (timestamps are not modeled and no claim
touches it). -/
structure Stats where
  total_emails : Nat
  total_opens : Nat
  total_clicks : Nat
  emails_opened : Nat
  open_rate : ℚ
  deriving Repr, DecidableEq

/-- Embedding of `get_stats` (main.py lines 308-346): `emails_opened` is
`COUNT(DISTINCT email_id)` over open events, and `open_rate` is the guarded
rounded percentage of main.py lines 326-330. -/
def get_stats (st : DBState) : Stats :=
  let total_emails := st.emails.length
  let emails_opened := ((st.events.filter (fun ev =>
    ev.event_type == "open")).map (fun ev => ev.email_id)).dedup.length
  { total_emails := total_emails,
    total_opens := (st.events.filter (fun ev => ev.event_type == "open")).length,
    total_clicks := (st.events.filter (fun ev => ev.event_type == "click")).length,
    emails_opened := emails_opened,
    open_rate :=
      if total_emails > 0 then
        round1 ((emails_opened : ℚ) / (total_emails : ℚ) * 100)
      else 0 }

/-- The tables whose CREATE TABLE statements appear in the `init_db`
executescript (database.py lines 18-46). -/
def init_db_tables : List String := ["emails", "links", "events"]

/-- The tables referenced by the SQL statements of `track_open`
(main.py lines 77, 88, 93). -/
def track_open_tables_used : List String := ["ignored_ips", "emails", "events"]

/-- The tables referenced by the SQL statements of `track_click`
(main.py lines 117, 127, 132). -/
def track_click_tables_used : List String := ["links", "ignored_ips", "events"]

/-- The per-request step sequence of `track_open` on the non-ignored success
path, in source order (main.py lines 72-109): the connection is acquired on
line 72, the geolocation call is awaited on line 92, and the connection is
closed in the finally block on line 99, before the response is returned. -/
inductive HandlerStep where
  | acquireDb : HandlerStep
  | queryLink : HandlerStep
  | queryIgnoredIps : HandlerStep
  | insertEmail : HandlerStep
  | callGeolocate : HandlerStep
  | insertEvent : HandlerStep
  | commitTx : HandlerStep
  | closeDb : HandlerStep
  | sendResponse : HandlerStep
  deriving Repr, DecidableEq, BEq

/-- Step order of `track_open` (main.py lines 72-109). -/
def track_open_steps : List HandlerStep :=
  [HandlerStep.acquireDb, HandlerStep.queryIgnoredIps, HandlerStep.insertEmail,
   HandlerStep.callGeolocate, HandlerStep.insertEvent, HandlerStep.commitTx,
   HandlerStep.closeDb, HandlerStep.sendResponse]

/-- Step order of `track_click` (main.py lines 115-141). -/
def track_click_steps : List HandlerStep :=
  [HandlerStep.acquireDb, HandlerStep.queryLink, HandlerStep.queryIgnoredIps,
   HandlerStep.callGeolocate, HandlerStep.insertEvent, HandlerStep.commitTx,
   HandlerStep.closeDb, HandlerStep.sendResponse]

/-- The event/link invariant of the data model (spec section 3): an open event
references no link, and a click event references a link row of the same
email. -/
def LinkInv (st : DBState) : Prop :=
  ∀ ev ∈ st.events,
    (ev.event_type = "open" → ev.link_id = none) ∧
    (ev.event_type = "click" →
      ∃ l ∈ st.links, ev.link_id = some l.id ∧ l.email_id = ev.email_id)

/-- Well-formedness of a store: primary keys of emails and links are unique,
the foreign keys of links and events point at existing emails, and `LinkInv`
holds.  These are exactly the constraints the schema enforces plus the
invariant the handlers maintain. -/
def Wf (st : DBState) : Prop :=
  (emailIds st).Nodup ∧
  (st.links.map (fun l => l.id)).Nodup ∧
  (∀ l ∈ st.links, l.email_id ∈ emailIds st) ∧
  (∀ ev ∈ st.events, ev.email_id ∈ emailIds st) ∧
  LinkInv st

/-- The states reachable from the empty store by any sequence of the embedded
operations, over all request data, geolocation outcomes and failure
outcomes. -/
inductive Reachable : DBState → Prop where
  | init : Reachable initState
  | trackOpen (st : DBState) (tid ip ua : String) (geo : Option GeoReply)
      (fails : Bool) : Reachable st →
      Reachable (track_open st tid ip ua geo fails).1
  | trackClick (st : DBState) (lid ip ua : String) (geo : Option GeoReply)
      (fails : Bool) : Reachable st →
      Reachable (track_click st lid ip ua geo fails).1
  | createEmail (st : DBState) (eid : Option String) (subject recipient : String)
      (urls : List String) (hex : List Char) (lids : List String) :
      Reachable st →
      Reachable (create_email st eid subject recipient urls hex lids).1
  | deleteEmail (st : DBState) (eid : String) : Reachable st →
      Reachable (delete_email st eid)
  | addIgnoredIp (st : DBState) (ip : String) : Reachable st →
      Reachable (add_ignored_ip st ip)
  | removeIgnoredIp (st : DBState) (ip : String) : Reachable st →
      Reachable (remove_ignored_ip st ip)

/-- Specification-side count for claim C7: the number of emails having at
least one open event.  The source computes `emails_opened` differently
(COUNT(DISTINCT email_id) over open events); claim C7 relates the two. -/
def emailsWithOpen (st : DBState) : Nat :=
  (st.emails.filter (fun e =>
    st.events.any (fun ev =>
      ev.email_id == e.id && ev.event_type == "open"))).length

theorem links_insertEmailIfMissing (st : DBState) (id : String) :
    (insertEmailIfMissing st id).links = st.links := by
  unfold insertEmailIfMissing; split <;> rfl

theorem events_insertEmailIfMissing (st : DBState) (id : String) :
    (insertEmailIfMissing st id).events = st.events := by
  unfold insertEmailIfMissing; split <;> rfl

theorem mem_emailIds_insertEmailIfMissing (st : DBState) (id : String) :
    id ∈ emailIds (insertEmailIfMissing st id) := by
  unfold insertEmailIfMissing
  split
  case isTrue h =>
    rcases List.any_eq_true.mp h with ⟨e, he, hid⟩
    exact List.mem_map.mpr ⟨e, he, (beq_iff_eq.mp hid).symm ▸ rfl⟩
  case isFalse h =>
    simp [emailIds]

theorem emailIds_insertEmailIfMissing_mono (st : DBState) (id x : String)
    (hx : x ∈ emailIds st) : x ∈ emailIds (insertEmailIfMissing st id) := by
  unfold insertEmailIfMissing
  split
  · exact hx
  · simp only [emailIds, List.map_append] at *
    exact List.mem_append_left _ hx

theorem nodup_emailIds_insertEmailIfMissing (st : DBState) (id : String)
    (h : (emailIds st).Nodup) :
    (emailIds (insertEmailIfMissing st id)).Nodup := by
  unfold insertEmailIfMissing
  split
  case isTrue _ => exact h
  case isFalse hany =>
    simp only [emailIds, List.map_append, List.map_cons, List.map_nil]
    rw [List.nodup_append]
    refine ⟨h, List.nodup_singleton _, ?_⟩
    intro x hx hxid
    rcases List.mem_map.mp hx with ⟨e, he, rfl⟩
    rcases List.mem_singleton.mp hxid with rfl
    exact hany (List.any_eq_true.mpr ⟨e, he, beq_iff_eq.mpr rfl⟩)

theorem links_upsertEmail (st : DBState) (id s r : String) :
    (upsertEmail st id s r).links = st.links := by
  unfold upsertEmail; split <;> rfl

theorem events_upsertEmail (st : DBState) (id s r : String) :
    (upsertEmail st id s r).events = st.events := by
  unfold upsertEmail; split <;> rfl

theorem emailIds_upsertEmail (st : DBState) (id s r : String) :
    emailIds (upsertEmail st id s r) =
      if st.emails.any (fun e => e.id == id) then emailIds st
      else emailIds st ++ [id] := by
  unfold upsertEmail
  split
  case isTrue h =>
    simp only [if_pos h, emailIds, List.map_map]
    congr 1
    funext e
    by_cases hc : (e.id == id && (e.subject == "" || e.recipient == "")) = true <;>
      simp [Function.comp, hc]
  case isFalse h =>
    simp [if_neg h, emailIds]

theorem mem_emailIds_upsertEmail (st : DBState) (id s r : String) :
    id ∈ emailIds (upsertEmail st id s r) := by
  rw [emailIds_upsertEmail]
  split
  case isTrue h =>
    rcases List.any_eq_true.mp h with ⟨e, he, hid⟩
    exact List.mem_map.mpr ⟨e, he, (beq_iff_eq.mp hid).symm ▸ rfl⟩
  case isFalse h => simp

theorem emailIds_upsertEmail_mono (st : DBState) (id s r x : String)
    (hx : x ∈ emailIds st) : x ∈ emailIds (upsertEmail st id s r) := by
  rw [emailIds_upsertEmail]
  split
  · exact hx
  · exact List.mem_append_left _ hx

theorem nodup_emailIds_upsertEmail (st : DBState) (id s r : String)
    (h : (emailIds st).Nodup) : (emailIds (upsertEmail st id s r)).Nodup := by
  rw [emailIds_upsertEmail]
  split
  case isTrue _ => exact h
  case isFalse hany =>
    rw [List.nodup_append]
    refine ⟨h, List.nodup_singleton _, ?_⟩
    intro x hx hxid
    rcases List.mem_map.mp hx with ⟨e, he, rfl⟩
    rcases List.mem_singleton.mp hxid with rfl
    exact hany (List.any_eq_true.mpr ⟨e, he, beq_iff_eq.mpr rfl⟩)

theorem wf_appendEvent_open (st : DBState) (eid ip ua c : String)
    (hw : Wf st) (heid : eid ∈ emailIds st) :
    Wf (appendEvent st eid none "open" ip ua c) := by
  obtain ⟨h1, h2, h3, h4, h5⟩ := hw
  refine ⟨h1, h2, h3, ?_, ?_⟩
  · intro ev hev
    rcases List.mem_append.mp hev with h | h
    · exact h4 ev h
    · rcases List.mem_singleton.mp h with rfl
      exact heid
  · intro ev hev
    rcases List.mem_append.mp hev with h | h
    · exact h5 ev h
    · rcases List.mem_singleton.mp h with rfl
      exact ⟨fun _ => rfl, fun hcl => by simp at hcl⟩

theorem wf_appendEvent_click (st : DBState) (lid ip ua c : String) (l : Link)
    (hw : Wf st) (hl : l ∈ st.links) (hid : l.id = lid) :
    Wf (appendEvent st l.email_id (some lid) "click" ip ua c) := by
  obtain ⟨h1, h2, h3, h4, h5⟩ := hw
  refine ⟨h1, h2, h3, ?_, ?_⟩
  · intro ev hev
    rcases List.mem_append.mp hev with h | h
    · exact h4 ev h
    · rcases List.mem_singleton.mp h with rfl
      exact h3 l hl
  · intro ev hev
    rcases List.mem_append.mp hev with h | h
    · exact h5 ev h
    · rcases List.mem_singleton.mp h with rfl
      exact ⟨fun hop => by simp at hop,
             fun _ => ⟨l, hl, by rw [hid], rfl⟩⟩

theorem wf_insertEmailIfMissing (st : DBState) (id : String) (hw : Wf st) :
    Wf (insertEmailIfMissing st id) := by
  obtain ⟨h1, h2, h3, h4, h5⟩ := hw
  refine ⟨nodup_emailIds_insertEmailIfMissing st id h1, ?_, ?_, ?_, ?_⟩
  · rw [links_insertEmailIfMissing]; exact h2
  · rw [links_insertEmailIfMissing]
    exact fun l hl => emailIds_insertEmailIfMissing_mono st id _ (h3 l hl)
  · rw [events_insertEmailIfMissing]
    exact fun ev hev => emailIds_insertEmailIfMissing_mono st id _ (h4 ev hev)
  · intro ev hev
    rw [events_insertEmailIfMissing] at hev
    rcases h5 ev hev with ⟨ho, hc⟩
    refine ⟨ho, fun hcl => ?_⟩
    rcases hc hcl with ⟨l, hl, hrest⟩
    exact ⟨l, by rw [links_insertEmailIfMissing]; exact hl, hrest⟩

theorem wf_track_open (st : DBState) (tid ip ua : String)
    (geo : Option GeoReply) (fails : Bool) (hw : Wf st) :
    Wf (track_open st tid ip ua geo fails).1 := by
  unfold track_open
  split
  · exact hw
  · split
    · exact hw
    · exact wf_appendEvent_open _ tid ip ua _
        (wf_insertEmailIfMissing st tid hw)
        (mem_emailIds_insertEmailIfMissing st tid)

theorem wf_track_click (st : DBState) (lid ip ua : String)
    (geo : Option GeoReply) (fails : Bool) (hw : Wf st) :
    Wf (track_click st lid ip ua geo fails).1 := by
  unfold track_click
  cases hfind : findLink st lid with
  | none => exact hw
  | some l =>
    have hl : l ∈ st.links := List.mem_of_find?_eq_some hfind
    have hid : l.id = lid := by
      have := List.find?_some hfind
      exact beq_iff_eq.mp this
    show Wf ((if st.ignored_ips.contains ip
        then (st, some (Resp.redirect 302 l.original_url))
        else if fails
          then (st, (none : Option Resp))
          else (appendEvent st l.email_id (some lid) "click" ip ua
                  (geolocate_ip ip geo),
                some (Resp.redirect 302 l.original_url))).1)
    split_ifs
    · exact hw
    · exact hw
    · exact wf_appendEvent_click st lid ip ua (geolocate_ip ip geo) l hw hl hid

theorem wf_create_email (st : DBState) (eid : Option String)
    (subject recipient : String) (urls : List String) (hex : List Char)
    (lids : List String) (hw : Wf st) :
    Wf (create_email st eid subject recipient urls hex lids).1 := by
  have core : ∀ email_id : String,
      Wf ((if lids.length = urls.length ∧
            (st.links.map (fun l => l.id) ++ lids).Nodup then
          ({ upsertEmail st email_id subject recipient with
             links := (upsertEmail st email_id subject recipient).links ++
               (lids.zip urls).map (fun p => Link.mk p.1 email_id p.2) },
           some { email_id := email_id,
                  pixel_url := "/t/" ++ email_id ++ ".png",
                  links := (lids.zip urls).map (fun p => (p.2, "/c/" ++ p.1)) })
         else (st, (none : Option RegisterResult))).1) := by
    intro email_id
    split
    case isTrue h =>
      obtain ⟨hlen, hnd⟩ := h
      obtain ⟨h1, h2, h3, h4, h5⟩ := hw
      have hmap : ((lids.zip urls).map
          (fun p => Link.mk p.1 email_id p.2)).map (fun l => l.id) = lids := by
        rw [List.map_map]
        have hc : ((fun l => l.id) ∘
            fun p : String × String => Link.mk p.1 email_id p.2) = Prod.fst := rfl
        rw [hc]
        exact List.map_fst_zip lids urls (le_of_eq hlen)
      refine ⟨?_, ?_, ?_, ?_, ?_⟩
      · exact nodup_emailIds_upsertEmail st email_id subject recipient h1
      · show ((upsertEmail st email_id subject recipient).links ++
          (lids.zip urls).map (fun p => Link.mk p.1 email_id p.2)).map
            (fun l => l.id) |>.Nodup
        rw [links_upsertEmail, List.map_append, hmap]
        exact hnd
      · intro l hl
        rcases List.mem_append.mp hl with h | h
        · rw [links_upsertEmail] at h
          exact emailIds_upsertEmail_mono st email_id subject recipient _ (h3 l h)
        · rcases List.mem_map.mp h with ⟨p, _, rfl⟩
          exact mem_emailIds_upsertEmail st email_id subject recipient
      · intro ev hev
        have hev2 : ev ∈ st.events := by
          rw [show ({ upsertEmail st email_id subject recipient with
              links := (upsertEmail st email_id subject recipient).links ++
                (lids.zip urls).map (fun p => Link.mk p.1 email_id p.2) } :
              DBState).events =
            (upsertEmail st email_id subject recipient).events from rfl,
            events_upsertEmail] at hev
          exact hev
        exact emailIds_upsertEmail_mono st email_id subject recipient _ (h4 ev hev2)
      · intro ev hev
        have hev2 : ev ∈ st.events := by
          rw [show ({ upsertEmail st email_id subject recipient with
              links := (upsertEmail st email_id subject recipient).links ++
                (lids.zip urls).map (fun p => Link.mk p.1 email_id p.2) } :
              DBState).events =
            (upsertEmail st email_id subject recipient).events from rfl,
            events_upsertEmail] at hev
          exact hev
        rcases h5 ev hev2 with ⟨ho, hc⟩
        refine ⟨ho, fun hcl => ?_⟩
        rcases hc hcl with ⟨l, hl, hrest⟩
        refine ⟨l, ?_, hrest⟩
        exact List.mem_append_left _ (by rw [links_upsertEmail]; exact hl)
    case isFalse => exact hw
  exact core _

theorem wf_delete_email (st : DBState) (eid : String) (hw : Wf st) :
    Wf (delete_email st eid) := by
  obtain ⟨h1, h2, h3, h4, h5⟩ := hw
  have hmem : ∀ x, x ∈ emailIds st → x ≠ eid →
      x ∈ emailIds (delete_email st eid) := by
    intro x hx hne
    rcases List.mem_map.mp hx with ⟨e, he, rfl⟩
    refine List.mem_map.mpr ⟨e, List.mem_filter.mpr ⟨he, ?_⟩, rfl⟩
    simp only [Bool.not_eq_eq_eq_not, Bool.not_true, beq_eq_false_iff_ne, ne_eq]
    exact hne
  refine ⟨?_, ?_, ?_, ?_, ?_⟩
  · exact List.Nodup.sublist ((List.filter_sublist _).map _) h1
  · exact List.Nodup.sublist ((List.filter_sublist _).map _) h2
  · intro l hl
    rcases List.mem_filter.mp hl with ⟨hl0, hcond⟩
    have hne : l.email_id ≠ eid := by
      simpa using hcond
    exact hmem _ (h3 l hl0) hne
  · intro ev hev
    rcases List.mem_filter.mp hev with ⟨hev0, hcond⟩
    have hne : ev.email_id ≠ eid := by
      simp only [Bool.and_eq_true] at hcond
      simpa using hcond.1
    exact hmem _ (h4 ev hev0) hne
  · intro ev hev
    rcases List.mem_filter.mp hev with ⟨hev0, hcond⟩
    have hne : ev.email_id ≠ eid := by
      simp only [Bool.and_eq_true] at hcond
      simpa using hcond.1
    rcases h5 ev hev0 with ⟨ho, hc⟩
    refine ⟨ho, fun hcl => ?_⟩
    rcases hc hcl with ⟨l, hl, hlid, hlem⟩
    refine ⟨l, List.mem_filter.mpr ⟨hl, ?_⟩, hlid, hlem⟩
    simp only [Bool.not_eq_eq_eq_not, Bool.not_true, beq_eq_false_iff_ne, ne_eq]
    rw [hlem]
    exact hne

theorem wf_add_ignored_ip (st : DBState) (ip : String) (hw : Wf st) :
    Wf (add_ignored_ip st ip) := by
  unfold add_ignored_ip
  split
  · exact hw
  · exact hw

theorem wf_remove_ignored_ip (st : DBState) (ip : String) (hw : Wf st) :
    Wf (remove_ignored_ip st ip) := hw

/-- Every reachable store is well-formed: unique primary keys, valid foreign
keys, and the event/link invariant. -/
theorem reachable_wf (st : DBState) (h : Reachable st) : Wf st := by
  induction h with
  | init =>
    refine ⟨?_, ?_, ?_, ?_, ?_⟩ <;> simp [initState, emailIds, LinkInv]
  | trackOpen st tid ip ua geo fails h ih =>
    exact wf_track_open st tid ip ua geo fails ih
  | trackClick st lid ip ua geo fails h ih =>
    exact wf_track_click st lid ip ua geo fails ih
  | createEmail st eid s r urls hex lids h ih =>
    exact wf_create_email st eid s r urls hex lids ih
  | deleteEmail st eid h ih => exact wf_delete_email st eid ih
  | addIgnoredIp st ip h ih => exact wf_add_ignored_ip st ip ih
  | removeIgnoredIp st ip h ih => exact wf_remove_ignored_ip st ip ih

/-- Claim C1: the persisted-state contract requires all four tables after
initialization, but the `init_db` executescript creates only `emails`,
`links` and `events`; the `ignored_ips` table that both tracking handlers
query is never created.  On a fresh database every ignored-IP lookup
therefore hits a missing table. -/
theorem c1_ignored_ips_table_missing :
    "ignored_ips" ∈ track_open_tables_used ∧
    "ignored_ips" ∈ track_click_tables_used ∧
    "ignored_ips" ∉ init_db_tables ∧
    "emails" ∈ init_db_tables ∧
    "links" ∈ init_db_tables ∧
    "events" ∈ init_db_tables := by decide

/-- Claim C9 counterexample: in neither handler does the connection release
precede the geolocation call; `closeDb` sits after `callGeolocate` in both
per-request step sequences. -/
theorem c9_counterexample :
    ¬(track_open_steps.indexOf HandlerStep.closeDb <
        track_open_steps.indexOf HandlerStep.callGeolocate) ∧
    ¬(track_click_steps.indexOf HandlerStep.closeDb <
        track_click_steps.indexOf HandlerStep.callGeolocate) := by decide

/-- Claim C9 (amended): the storage connection is acquired and released
within each request, but it is held across the awaited geolocation call: in
both handlers the connection is acquired before the geolocation call and
released only in the finally block after it. -/
theorem c9_connection_held_across_geolocate :
    track_open_steps.indexOf HandlerStep.acquireDb <
      track_open_steps.indexOf HandlerStep.callGeolocate ∧
    track_open_steps.indexOf HandlerStep.callGeolocate <
      track_open_steps.indexOf HandlerStep.closeDb ∧
    track_click_steps.indexOf HandlerStep.acquireDb <
      track_click_steps.indexOf HandlerStep.callGeolocate ∧
    track_click_steps.indexOf HandlerStep.callGeolocate <
      track_click_steps.indexOf HandlerStep.closeDb := by decide

/-- Claim C2 counterexample: on a registered email with one link, if the
event-write storage operation raises, the open handler does not return the
pixel and the click handler does not return the redirect — the exception
propagates out of the try/finally (no except clause) and FastAPI answers
with an error instead. -/
theorem c2_counterexample :
    ¬((track_open (create_email initState (some "e1") "subj" "rcpt"
          ["https://example.com"] [] ["l1"]).1 "e1" "8.8.8.8" "ua" none
          true).2 = some (Resp.pixel pixelCacheHeadersFull)) ∧
    ¬((track_click (create_email initState (some "e1") "subj" "rcpt"
          ["https://example.com"] [] ["l1"]).1 "l1" "8.8.8.8" "ua" none
          true).2 = some (Resp.redirect 302 "https://example.com")) := by
  decide

/-- Claim C2 (amended): past the ignored-IP check, the success responses are
produced exactly when the storage operations succeed.  When they succeed the
open handler returns the pixel with the full cache-disabling headers and the
click handler returns the 302 redirect to the stored url; when an event-write
storage operation raises, the exception propagates and neither response is
returned (FastAPI turns it into a 500).  Only the geolocation call absorbs
its own failures, resolving to the empty string. -/
theorem c2_storage_failure_propagates (st : DBState) (tid lid ip ua : String)
    (geo : Option GeoReply) (link : Link)
    (hip : st.ignored_ips.contains ip = false)
    (hlink : findLink st lid = some link) :
    (track_open st tid ip ua geo false).2 =
      some (Resp.pixel pixelCacheHeadersFull) ∧
    (track_open st tid ip ua geo true).2 = none ∧
    (track_click st lid ip ua geo false).2 =
      some (Resp.redirect 302 link.original_url) ∧
    (track_click st lid ip ua geo true).2 = none ∧
    geolocate_ip ip none = "" := by
  have hip2 : ip ∉ st.ignored_ips := by simpa using hip
  refine ⟨?_, ?_, ?_, ?_, ?_⟩
  · simp [track_open, hip2]
  · simp [track_open, hip2]
  · simp [track_click, hlink, hip2]
  · simp [track_click, hlink, hip2]
  · unfold geolocate_ip
    split
    · rfl
    · rfl

/-- Concrete run of the amended claim C2 theorem on a registered email with
one link from a non-ignored IP. -/
theorem c2_witness :
    (track_open (create_email initState (some "e1") "subj" "rcpt"
        ["https://example.com"] [] ["l1"]).1 "e1" "8.8.8.8" "ua" none
        false).2 = some (Resp.pixel pixelCacheHeadersFull) ∧
    (track_open (create_email initState (some "e1") "subj" "rcpt"
        ["https://example.com"] [] ["l1"]).1 "e1" "8.8.8.8" "ua" none
        true).2 = none ∧
    (track_click (create_email initState (some "e1") "subj" "rcpt"
        ["https://example.com"] [] ["l1"]).1 "l1" "8.8.8.8" "ua" none
        true).2 = none := by
  have h := c2_storage_failure_propagates
    (create_email initState (some "e1") "subj" "rcpt"
      ["https://example.com"] [] ["l1"]).1
    "e1" "l1" "8.8.8.8" "ua" none
    (Link.mk "l1" "e1" "https://example.com") (by decide) (by decide)
  exact ⟨h.1, h.2.1, h.2.2.2.1⟩

theorem find?_append_of_none {α : Type} (p : α → Bool) (l1 l2 : List α)
    (h : l1.find? p = none) : (l1 ++ l2).find? p = l2.find? p := by
  induction l1 with
  | nil => rfl
  | cons a t ih =>
    cases hpa : p a with
    | true =>
      rw [List.find?_cons_of_pos _ hpa] at h
      exact absurd h (by simp)
    | false =>
      have h2 : t.find? p = none := by
        rwa [List.find?_cons_of_neg _ (by simp [hpa])] at h
      rw [List.cons_append, List.find?_cons_of_neg _ (by simp [hpa])]
      exact ih h2

theorem upsertEmail_of_absent (st : DBState) (id s r : String)
    (h : st.emails.any (fun e => e.id == id) = false) :
    upsertEmail st id s r =
      { st with emails := st.emails ++ [⟨id, s, r⟩] } := by
  unfold upsertEmail
  simp [h]

theorem upsertEmail_emails_of_no_update (st : DBState) (id s r : String)
    (hpresent : st.emails.any (fun e => e.id == id) = true)
    (hfix : ∀ e ∈ st.emails,
      (e.id == id && (e.subject == "" || e.recipient == "")) = false) :
    (upsertEmail st id s r).emails = st.emails := by
  unfold upsertEmail
  simp only [hpresent, if_true]
  have hid : ∀ e ∈ st.emails,
      (if e.id == id && (e.subject == "" || e.recipient == "") then
        { e with subject := s, recipient := r } else e) = e := by
    intro e he
    rw [hfix e he]
    simp
  rw [List.map_congr_left hid]
  exact List.map_id _

/-- Claim C3 counterexample: registering `{id: "x", subject: "A"}` (recipient
stays empty) and then `{id: "x", subject: "B"}` leaves subject "B", not "A":
the DO UPDATE fires because its WHERE clause tests
`subject = '' OR recipient = ''` and the stored recipient is still empty. -/
theorem c3_counterexample :
    ¬((getEmailRow (create_email (create_email initState (some "x") "A" ""
        [] [] []).1 (some "x") "B" "" [] [] []).1 "x").map
          (fun e => e.subject) = some "A") := by decide

/-- Claim C3 (amended): the update branch of the upsert overwrites subject
and recipient when the stored subject OR the stored recipient is empty, so
first registration wins only once both fields are non-empty: after storing
`{id, s1, r1}` with s1 and r1 non-empty, a second registration with any
s2, r2 leaves the row unchanged.  With an empty stored recipient the second
registration does overwrite, as in the concrete two-step example of the
original claim, which ends with subject "B". -/
theorem c3_upsert_first_wins_when_complete (st : DBState)
    (id s1 r1 s2 r2 : String)
    (habsent : st.emails.any (fun e => e.id == id) = false)
    (hs : (s1 == "") = false) (hr : (r1 == "") = false) :
    getEmailRow (upsertEmail (upsertEmail st id s1 r1) id s2 r2) id =
      some ⟨id, s1, r1⟩ ∧
    getEmailRow (create_email (create_email initState (some "x") "A" ""
        [] [] []).1 (some "x") "B" "" [] [] []).1 "x" =
      some ⟨"x", "B", ""⟩ := by
  refine ⟨?_, by decide⟩
  have hall : ∀ e ∈ st.emails, (e.id == id) = false := by
    intro e he
    have h2 := (List.any_eq_false.mp habsent) e he
    simpa using h2
  rw [upsertEmail_of_absent st id s1 r1 habsent]
  have hpresent :
      ({ st with emails := st.emails ++ [⟨id, s1, r1⟩] } :
        DBState).emails.any (fun e => e.id == id) = true := by
    simp [List.any_append]
  have hfix : ∀ e ∈ ({ st with emails := st.emails ++ [⟨id, s1, r1⟩] } :
      DBState).emails,
      (e.id == id && (e.subject == "" || e.recipient == "")) = false := by
    intro e he
    rcases List.mem_append.mp he with h | h
    · rw [hall e h]
      simp
    · rcases List.mem_singleton.mp h with rfl
      simp [hs, hr]
  show getEmailRow _ id = _
  unfold getEmailRow
  rw [upsertEmail_emails_of_no_update _ id s2 r2 hpresent hfix]
  show (st.emails ++ [Email.mk id s1 r1]).find? (fun e => e.id == id) =
    some (Email.mk id s1 r1)
  rw [find?_append_of_none _ _ _
    (List.find?_eq_none.mpr (fun e he => by rw [hall e he]; simp))]
  exact List.find?_cons_of_pos _ (by simp)

/-- Concrete run of the amended claim C3 theorem: both fields non-empty on
first registration, so the second registration changes nothing. -/
theorem c3_witness :
    getEmailRow (upsertEmail (upsertEmail initState "x" "A" "R") "x" "B" "R2")
      "x" = some ⟨"x", "A", "R"⟩ :=
  (c3_upsert_first_wins_when_complete initState "x" "A" "R" "B" "R2"
    (by decide) (by decide) (by decide)).1

/-- Claim C4: a request from an ignored IP inserts no event row in either
handler (the state is returned unchanged), while the open handler still
returns the pixel and the click handler still issues the 302 redirect to the
stored original url. -/
theorem c4_ignored_ip_suppressed (st : DBState) (tid lid ip ua : String)
    (geo : Option GeoReply) (fails : Bool) (link : Link)
    (hip : st.ignored_ips.contains ip = true)
    (hlink : findLink st lid = some link) :
    track_open st tid ip ua geo fails =
      (st, some (Resp.pixel pixelCacheHeadersShort)) ∧
    track_click st lid ip ua geo fails =
      (st, some (Resp.redirect 302 link.original_url)) ∧
    (track_open st tid ip ua geo fails).1.events = st.events ∧
    (track_click st lid ip ua geo fails).1.events = st.events := by
  have hip2 : ip ∈ st.ignored_ips := by simpa using hip
  have h1 : track_open st tid ip ua geo fails =
      (st, some (Resp.pixel pixelCacheHeadersShort)) := by
    simp [track_open, hip2]
  have h2 : track_click st lid ip ua geo fails =
      (st, some (Resp.redirect 302 link.original_url)) := by
    simp [track_click, hlink, hip2]
  exact ⟨h1, h2, by rw [h1], by rw [h2]⟩

/-- Concrete run of the claim C4 theorem on a store whose ignored set holds
the requesting IP. -/
theorem c4_witness :
    track_open (DBState.mk [Email.mk "e1" "s" "r"]
        [Link.mk "l1" "e1" "https://a.example"] [] ["9.9.9.9"] 1)
      "e1" "9.9.9.9" "ua" none false =
      (DBState.mk [Email.mk "e1" "s" "r"]
        [Link.mk "l1" "e1" "https://a.example"] [] ["9.9.9.9"] 1,
       some (Resp.pixel pixelCacheHeadersShort)) ∧
    track_click (DBState.mk [Email.mk "e1" "s" "r"]
        [Link.mk "l1" "e1" "https://a.example"] [] ["9.9.9.9"] 1)
      "l1" "9.9.9.9" "ua" none false =
      (DBState.mk [Email.mk "e1" "s" "r"]
        [Link.mk "l1" "e1" "https://a.example"] [] ["9.9.9.9"] 1,
       some (Resp.redirect 302 "https://a.example")) := by
  have h := c4_ignored_ip_suppressed
    (DBState.mk [Email.mk "e1" "s" "r"]
      [Link.mk "l1" "e1" "https://a.example"] [] ["9.9.9.9"] 1)
    "e1" "l1" "9.9.9.9" "ua" none false
    (Link.mk "l1" "e1" "https://a.example") (by decide) (by decide)
  exact ⟨h.1, h.2.1⟩

/-- Claim C5: every reachable store satisfies the event/link invariant: a
click event references a link id whose link row belongs to the same email as
the event, and an open event references no link. -/
theorem c5_event_link_invariant (st : DBState) (h : Reachable st) :
    LinkInv st :=
  (reachable_wf st h).2.2.2.2

/-- Concrete run of the claim C5 theorem on a store reached by registering an
email with one link, firing the pixel and clicking the link. -/
theorem c5_witness :
    LinkInv (track_click (track_open (create_email initState (some "e1") "s"
        "r" ["https://a.example"] [] ["l1"]).1 "e1" "1.2.3.4" "ua" none
        false).1 "l1" "5.6.7.8" "ua" none false).1 :=
  c5_event_link_invariant _
    (Reachable.trackClick _ "l1" "5.6.7.8" "ua" none false
      (Reachable.trackOpen _ "e1" "1.2.3.4" "ua" none false
        (Reachable.createEmail initState (some "e1") "s" "r"
          ["https://a.example"] [] ["l1"] Reachable.init)))

/-- Claim C8: the unique_opens value of an email equals the number of
distinct client-IP values among its open events, and appending one more open
event leaves it unchanged when the IP already occurs among them and raises it
by exactly one when the IP is new. -/
theorem c8_unique_opens (st : DBState) (eid ip ua c : String) :
    uniqueOpens st eid = (openIps st eid).toFinset.card ∧
    uniqueOpens (appendEvent st eid none "open" ip ua c) eid =
      uniqueOpens st eid + (if ip ∈ openIps st eid then 0 else 1) := by
  have happend : openIps (appendEvent st eid none "open" ip ua c) eid =
      openIps st eid ++ [ip] := by
    unfold openIps appendEvent
    rw [List.filter_append, List.map_append]
    congr 1
    simp
  constructor
  · show (openIps st eid).dedup.length = (openIps st eid).toFinset.card
    exact (List.card_toFinset _).symm
  · show (openIps (appendEvent st eid none "open" ip ua c) eid).dedup.length =
      uniqueOpens st eid + (if ip ∈ openIps st eid then 0 else 1)
    rw [happend]
    calc (openIps st eid ++ [ip]).dedup.length
        = (openIps st eid ++ [ip]).toFinset.card :=
          (List.card_toFinset _).symm
      _ = (insert ip (openIps st eid).toFinset).card := by
          congr 1
          rw [List.toFinset_append]
          simp [Finset.union_comm, Finset.insert_eq]
      _ = (openIps st eid).toFinset.card +
            (if ip ∈ openIps st eid then 0 else 1) := by
          by_cases hmem : ip ∈ openIps st eid
          · rw [Finset.card_insert_of_mem (List.mem_toFinset.mpr hmem),
              if_pos hmem, Nat.add_zero]
          · rw [Finset.card_insert_of_not_mem
              (fun hc => hmem (List.mem_toFinset.mp hc)), if_neg hmem]
      _ = uniqueOpens st eid + (if ip ∈ openIps st eid then 0 else 1) := by
          rw [List.card_toFinset]
          rfl

theorem filter_map_of_fix {α : Type} (p : α → Bool) (f : α → α) (l : List α)
    (hp : ∀ a, p (f a) = p a) (hfix : ∀ a, p a = true → f a = a) :
    (l.map f).filter p = l.filter p := by
  induction l with
  | nil => rfl
  | cons a t ih =>
    rw [List.map_cons, List.filter_cons, List.filter_cons, hp a]
    by_cases hpa : p a = true
    · simp only [hpa, if_true, hfix a hpa, ih]
    · have hpa2 : p a = false := by revert hpa; cases p a <;> simp
      simp only [hpa2, Bool.false_eq_true, if_false, ih]

/-- Claim C10: when the registration body supplies no emailId or the empty
string (the falsy values of `body.get("emailId") or ...` representable in the
embedding), the generated 12-character id is used and returned, and
registration creates no email row with an empty-string id. -/
theorem c10_falsy_email_id (st : DBState) (eid : Option String)
    (subject recipient : String) (hex : List Char)
    (hlen : hex.length = 32)
    (hfalsy : eid = none ∨ eid = some "")
    (hnd : (st.links.map (fun l => l.id)).Nodup) :
    (create_email st eid subject recipient [] hex []).2 =
      some { email_id := generatedId hex,
             pixel_url := "/t/" ++ generatedId hex ++ ".png",
             links := [] } ∧
    (generatedId hex).length = 12 ∧
    (create_email st eid subject recipient [] hex []).1.emails.filter
      (fun e => e.id == "") = st.emails.filter (fun e => e.id == "") := by
  have hglen : (generatedId hex).length = 12 := by
    show (hex.take 12).length = 12
    rw [List.length_take, hlen]
    decide
  have hgne : (generatedId hex == "") = false := by
    apply beq_eq_false_iff_ne.mpr
    intro hcontra
    rw [hcontra] at hglen
    simp at hglen
  have hred : create_email st eid subject recipient [] hex [] =
      create_email st none subject recipient [] hex [] := by
    rcases hfalsy with rfl | rfl
    · rfl
    · rfl
  have hcompute : create_email st none subject recipient [] hex [] =
      ({ upsertEmail st (generatedId hex) subject recipient with
         links :=
           (upsertEmail st (generatedId hex) subject recipient).links ++ [] },
       some { email_id := generatedId hex,
              pixel_url := "/t/" ++ generatedId hex ++ ".png",
              links := [] }) := by
    unfold create_email
    rw [if_pos ⟨rfl, by rw [List.append_nil]; exact hnd⟩]
    rfl
  refine ⟨?_, hglen, ?_⟩
  · rw [hred, hcompute]
  · rw [hred, hcompute]
    show (upsertEmail st (generatedId hex) subject recipient).emails.filter
      (fun e => e.id == "") = st.emails.filter (fun e => e.id == "")
    by_cases hpres : st.emails.any (fun e => e.id == generatedId hex) = true
    · have hemails : (upsertEmail st (generatedId hex) subject recipient).emails =
          st.emails.map (fun e =>
            if e.id == generatedId hex && (e.subject == "" || e.recipient == "")
            then { e with subject := subject, recipient := recipient }
            else e) := by
        unfold upsertEmail
        simp [hpres]
      rw [hemails]
      apply filter_map_of_fix
      · intro e
        by_cases hc : (e.id == generatedId hex &&
            (e.subject == "" || e.recipient == "")) = true <;> simp [hc]
      · intro e he
        have hid : e.id = "" := beq_iff_eq.mp he
        have hne : (e.id == generatedId hex) = false := by
          apply beq_eq_false_iff_ne.mpr
          rw [hid]
          intro hcontra
          rw [← hcontra] at hglen
          simp at hglen
        simp [hne]
    · have hfalse : st.emails.any (fun e => e.id == generatedId hex) = false := by
        revert hpres
        cases st.emails.any (fun e => e.id == generatedId hex) <;> simp
      rw [upsertEmail_of_absent st (generatedId hex) subject recipient hfalse]
      show (st.emails ++ [Email.mk (generatedId hex) subject recipient]).filter
        (fun e => e.id == "") = st.emails.filter (fun e => e.id == "")
      rw [List.filter_append]
      simp [hgne]

/-- Concrete run of the claim C10 theorem: a missing emailId on an empty
store yields the generated 12-character id. -/
theorem c10_witness :
    (create_email initState none "s" "r" []
        "0123456789abcdef0123456789abcdef".toList []).2 =
      some { email_id := generatedId "0123456789abcdef0123456789abcdef".toList,
             pixel_url := "/t/" ++
               generatedId "0123456789abcdef0123456789abcdef".toList ++ ".png",
             links := [] } ∧
    (generatedId "0123456789abcdef0123456789abcdef".toList).length = 12 := by
  have h := c10_falsy_email_id initState none "s" "r"
    "0123456789abcdef0123456789abcdef".toList (by decide) (Or.inl rfl)
    (by decide)
  exact ⟨h.1, h.2.1⟩

theorem delete_email_emails (st : DBState) (eid : String) :
    (delete_email st eid).emails =
      st.emails.filter (fun e => !(e.id == eid)) := rfl

theorem delete_email_links (st : DBState) (eid : String) :
    (delete_email st eid).links =
      st.links.filter (fun l => !(l.email_id == eid)) := rfl

/-- Claim C6: deleting an email removes it with all of its links and events:
afterwards the detail lookup is a 404, no email, link or event row for that
id survives, the listing never shows it for any search string, and the click
lookup fails for every link the email owned. -/
theorem c6_delete_cascades (st : DBState) (eid : String) (h : Reachable st) :
    getEmailRow (delete_email st eid) eid = none ∧
    get_email (delete_email st eid) eid = none ∧
    (delete_email st eid).emails.filter (fun e => e.id == eid) = [] ∧
    (delete_email st eid).links.filter (fun l => l.email_id == eid) = [] ∧
    (delete_email st eid).events.filter (fun ev => ev.email_id == eid) = [] ∧
    (∀ s, ∀ row ∈ list_emails_rows (delete_email st eid) s, row.id ≠ eid) ∧
    (∀ l ∈ st.links, l.email_id = eid →
      findLink (delete_email st eid) l.id = none) := by
  have h1 : getEmailRow (delete_email st eid) eid = none := by
    unfold getEmailRow
    rw [delete_email_emails]
    apply List.find?_eq_none.mpr
    intro e he
    have h2 := (List.mem_filter.mp he).2
    simpa using h2
  refine ⟨h1, ?_, ?_, ?_, ?_, ?_, ?_⟩
  · simp [get_email, h1]
  · rw [delete_email_emails]
    apply List.eq_nil_iff_forall_not_mem.mpr
    intro e he
    rcases List.mem_filter.mp he with ⟨he2, hcond⟩
    have hcond2 := (List.mem_filter.mp he2).2
    rw [hcond] at hcond2
    simp at hcond2
  · rw [delete_email_links]
    apply List.eq_nil_iff_forall_not_mem.mpr
    intro l hl
    rcases List.mem_filter.mp hl with ⟨hl2, hcond⟩
    have hcond2 := (List.mem_filter.mp hl2).2
    rw [hcond] at hcond2
    simp at hcond2
  · apply List.eq_nil_iff_forall_not_mem.mpr
    intro ev hev
    rcases List.mem_filter.mp hev with ⟨hev2, hcond⟩
    have hcond2 := (List.mem_filter.mp hev2).2
    simp only [Bool.and_eq_true] at hcond2
    have h3 := hcond2.1
    rw [hcond] at h3
    simp at h3
  · intro s row hrow
    rcases List.mem_map.mp hrow with ⟨e, he, rfl⟩
    have he2 : e ∈ (delete_email st eid).emails := (List.mem_filter.mp he).1
    rw [delete_email_emails] at he2
    have h2 := (List.mem_filter.mp he2).2
    show e.id ≠ eid
    simpa using h2
  · intro l hl hleid
    have hnd : (st.links.map (fun x => x.id)).Nodup :=
      (reachable_wf st h).2.1
    unfold findLink
    rw [delete_email_links]
    apply List.find?_eq_none.mpr
    intro l2 hl2
    rcases List.mem_filter.mp hl2 with ⟨hl2m, hcond⟩
    intro hc
    have hideq : l2.id = l.id := by simpa using hc
    have : l2 = l := List.inj_on_of_nodup_map hnd hl2m hl hideq
    rw [this, hleid] at hcond
    simp at hcond

/-- Concrete run of the claim C6 theorem: register an email with one link,
fire the pixel, click the link, then delete the email; neither the email nor
its link can be found afterwards. -/
theorem c6_witness :
    getEmailRow (delete_email (track_click (track_open (create_email initState
        (some "e1") "s" "r" ["https://a.example"] [] ["l1"]).1 "e1" "1.2.3.4"
        "ua" none false).1 "l1" "5.6.7.8" "ua" none false).1 "e1") "e1" =
      none ∧
    findLink (delete_email (track_click (track_open (create_email initState
        (some "e1") "s" "r" ["https://a.example"] [] ["l1"]).1 "e1" "1.2.3.4"
        "ua" none false).1 "l1" "5.6.7.8" "ua" none false).1 "e1") "l1" =
      none := by
  have hr : Reachable (track_click (track_open (create_email initState
      (some "e1") "s" "r" ["https://a.example"] [] ["l1"]).1 "e1" "1.2.3.4"
      "ua" none false).1 "l1" "5.6.7.8" "ua" none false).1 :=
    Reachable.trackClick _ "l1" "5.6.7.8" "ua" none false
      (Reachable.trackOpen _ "e1" "1.2.3.4" "ua" none false
        (Reachable.createEmail initState (some "e1") "s" "r"
          ["https://a.example"] [] ["l1"] Reachable.init))
  have h := c6_delete_cascades _ "e1" hr
  exact ⟨h.1, h.2.2.2.2.2.2 (Link.mk "l1" "e1" "https://a.example")
    (by decide) rfl⟩

theorem length_filter_comp (f : Email → String) (p : String → Bool)
    (l : List Email) :
    (l.filter (fun e => p (f e))).length = ((l.map f).filter p).length := by
  induction l with
  | nil => rfl
  | cons a t ih =>
    rw [List.map_cons, List.filter_cons, List.filter_cons]
    by_cases hpa : p (f a) = true
    · simp only [hpa, if_true, List.length_cons, ih]
    · have hpa2 : p (f a) = false := by revert hpa; cases p (f a) <;> simp
      simp only [hpa2, Bool.false_eq_true, if_false, ih]

theorem nodup_filter_length_eq_dedup (l ids : List String)
    (hnd : l.Nodup) (hsub : ∀ i ∈ ids, i ∈ l) :
    (l.filter (fun i => ids.contains i)).length = ids.dedup.length := by
  have h1 : (l.filter (fun i => ids.contains i)).Nodup := hnd.filter _
  have h2 : ids.dedup.Nodup := List.nodup_dedup ids
  have hiff : ∀ x, x ∈ l.filter (fun i => ids.contains i) ↔ x ∈ ids.dedup := by
    intro x
    rw [List.mem_filter, List.mem_dedup]
    constructor
    · rintro ⟨_, hxc⟩
      simpa using hxc
    · intro hx
      exact ⟨hsub x hx, by simpa using hx⟩
  have hperm := List.perm_of_nodup_nodup_toFinset_eq h1 h2
    (List.toFinset.ext hiff)
  exact hperm.length_eq

theorem emails_opened_eq_emailsWithOpen (st : DBState)
    (hnd : (emailIds st).Nodup)
    (hfk : ∀ ev ∈ st.events, ev.email_id ∈ emailIds st) :
    ((st.events.filter (fun ev => ev.event_type == "open")).map
      (fun ev => ev.email_id)).dedup.length = emailsWithOpen st := by
  have hbool : ∀ (a b : Bool), (a = true ↔ b = true) → a = b := by
    intro a b hab
    cases a <;> cases b <;> simp_all
  have hpred : ∀ e ∈ st.emails,
      (st.events.any (fun ev =>
        ev.email_id == e.id && ev.event_type == "open")) =
      (((st.events.filter (fun ev => ev.event_type == "open")).map
        (fun ev => ev.email_id)).contains e.id) := by
    intro e _
    apply hbool
    rw [List.any_eq_true]
    constructor
    · rintro ⟨ev, hev, hcond⟩
      simp only [Bool.and_eq_true, beq_iff_eq] at hcond
      have hm : e.id ∈ (st.events.filter (fun ev =>
          ev.event_type == "open")).map (fun ev => ev.email_id) :=
        List.mem_map.mpr ⟨ev, List.mem_filter.mpr ⟨hev, by simp [hcond.2]⟩,
          hcond.1⟩
      simpa using hm
    · intro hc
      have hm : e.id ∈ (st.events.filter (fun ev =>
          ev.event_type == "open")).map (fun ev => ev.email_id) := by
        simpa using hc
      rcases List.mem_map.mp hm with ⟨ev, hev, hevid⟩
      rcases List.mem_filter.mp hev with ⟨hev2, htype⟩
      exact ⟨ev, hev2, by simp [hevid, htype]⟩
  have hsub : ∀ i ∈ (st.events.filter (fun ev =>
      ev.event_type == "open")).map (fun ev => ev.email_id),
      i ∈ st.emails.map (fun e => e.id) := by
    intro i hi
    rcases List.mem_map.mp hi with ⟨ev, hev, rfl⟩
    exact hfk ev (List.mem_filter.mp hev).1
  unfold emailsWithOpen
  rw [List.filter_congr hpred,
    length_filter_comp (fun e => e.id)
      (fun i => ((st.events.filter (fun ev =>
        ev.event_type == "open")).map (fun ev => ev.email_id)).contains i)
      st.emails]
  exact (nodup_filter_length_eq_dedup _ _ hnd hsub).symm

/-- Claim C7: in the global stats, open_rate equals the percentage of emails
with at least one open event, rounded to one decimal place, and the guarded
division makes it exactly 0 when total_emails is 0, so the division branch is
never taken on an empty store. -/
theorem c7_open_rate (st : DBState) (h : Reachable st) :
    (get_stats st).open_rate =
      (if (get_stats st).total_emails = 0 then (0 : ℚ)
       else round1 ((emailsWithOpen st : ℚ) /
         ((get_stats st).total_emails : ℚ) * 100)) ∧
    ((get_stats st).total_emails = 0 → (get_stats st).open_rate = 0) := by
  have hw := reachable_wf st h
  have heq := emails_opened_eq_emailsWithOpen st hw.1 hw.2.2.2.1
  constructor
  · show (if st.emails.length > 0 then
        round1 ((((st.events.filter (fun ev => ev.event_type == "open")).map
          (fun ev => ev.email_id)).dedup.length : ℚ) /
          (st.emails.length : ℚ) * 100)
      else 0) =
      (if st.emails.length = 0 then (0 : ℚ)
       else round1 ((emailsWithOpen st : ℚ) / (st.emails.length : ℚ) * 100))
    rw [heq]
    by_cases hz : st.emails.length = 0
    · rw [hz]
      simp
    · rw [if_neg hz, if_pos (Nat.pos_of_ne_zero hz)]
  · intro hzero
    have hz : st.emails.length = 0 := hzero
    show (if st.emails.length > 0 then
        round1 ((((st.events.filter (fun ev => ev.event_type == "open")).map
          (fun ev => ev.email_id)).dedup.length : ℚ) /
          (st.emails.length : ℚ) * 100)
      else 0) = 0
    rw [hz]
    simp

/-- Concrete run of the claim C7 theorem: one registered email whose pixel
fired once gives an open rate of exactly 100. -/
theorem c7_witness :
    (get_stats (track_open (create_email initState (some "e1") "s" "r" [] []
        []).1 "e1" "1.2.3.4" "ua" none false).1).open_rate =
      (if (get_stats (track_open (create_email initState (some "e1") "s" "r"
          [] [] []).1 "e1" "1.2.3.4" "ua" none false).1).total_emails = 0
       then (0 : ℚ)
       else round1 ((emailsWithOpen (track_open (create_email initState
           (some "e1") "s" "r" [] [] []).1 "e1" "1.2.3.4" "ua" none
           false).1 : ℚ) /
         ((get_stats (track_open (create_email initState (some "e1") "s" "r"
           [] [] []).1 "e1" "1.2.3.4" "ua" none false).1).total_emails : ℚ) *
         100)) ∧
    (get_stats (track_open (create_email initState (some "e1") "s" "r" [] []
        []).1 "e1" "1.2.3.4" "ua" none false).1).open_rate = 100 := by
  have hr : Reachable (track_open (create_email initState (some "e1") "s" "r"
      [] [] []).1 "e1" "1.2.3.4" "ua" none false).1 :=
    Reachable.trackOpen _ "e1" "1.2.3.4" "ua" none false
      (Reachable.createEmail initState (some "e1") "s" "r" [] [] []
        Reachable.init)
  refine ⟨(c7_open_rate _ hr).1, ?_⟩
  show (if (1 : Nat) > 0 then
      round1 (((1 : Nat) : ℚ) / ((1 : Nat) : ℚ) * 100) else 0) = 100
  rw [if_pos (by norm_num)]
  rw [show ((1 : Nat) : ℚ) / ((1 : Nat) : ℚ) * 100 = ((100 : ℤ) : ℚ) by
    norm_num]
  rw [round1, show ((100 : ℤ) : ℚ) * 10 = ((1000 : ℤ) : ℚ) by norm_num,
    round_intCast]
  norm_num
